import Mathlib

/-!
Shallow embedding of the OCR relay service
(src/services/ocr/app/http_server.py) and proofs about its
response-normalization logic and request handler.

Numbers carried by the provider JSON (coordinates, confidences) are
modelled as rationals.  A coordinate field of a provider word record
holds an arbitrary JSON value: a number, a string, a list, or some
other value.  The arithmetic of the source follows Python semantics:
addition adds two numbers, concatenates two strings or two lists, and
raises on any other combination; subtraction requires two numbers;
comparisons work between two numbers, two strings, or two lists and
raise on mismatched types.  The except clauses of the source turn such
raises into the all-zero fallback box, while operations that succeed on
non-numeric operands (string or list concatenation) flow through and
produce non-numeric box fields.
-/

namespace OCRRelay

/-- JSON value held by a coordinate field of a provider word record:
a number, a string, a list, or another value (null, object) on which
Python addition and comparison raise. -/
inductive PyVal where
  | num (q : ℚ)
  | str (s : String)
  | list (xs : List PyVal)
  | other (tag : String)

/-- Python equality of two values: numbers by value, strings by
content, lists elementwise, anything of mismatched type unequal; it is
total and never raises. -/
def pyEq : PyVal → PyVal → Bool
  | .num a, .num b => decide (a = b)
  | .str a, .str b => decide (a = b)
  | .other a, .other b => decide (a = b)
  | .list [], .list [] => true
  | .list (a :: as), .list (b :: bs) =>
      pyEq a b && pyEq (.list as) (.list bs)
  | _, _ => false

/-- Python strict comparison: numbers and strings compare directly,
lists compare lexicographically (the first non-equal pair decides, ties
by length), every other combination raises a TypeError. -/
def pyLt : PyVal → PyVal → Except Unit Bool
  | .num a, .num b => .ok (decide (a < b))
  | .str a, .str b => .ok (decide (a < b))
  | .list [], .list [] => .ok false
  | .list [], .list (_ :: _) => .ok true
  | .list (_ :: _), .list [] => .ok false
  | .list (a :: as), .list (b :: bs) =>
      if pyEq a b then pyLt (.list as) (.list bs) else pyLt a b
  | _, _ => .error ()

/-- Python addition: adds two numbers, concatenates two strings or two
lists, raises on every other combination. -/
def pyAdd : PyVal → PyVal → Except Unit PyVal
  | .num a, .num b => .ok (.num (a + b))
  | .str a, .str b => .ok (.str (a ++ b))
  | .list a, .list b => .ok (.list (a ++ b))
  | _, _ => .error ()

/-- Python subtraction: defined on two numbers only, raises
otherwise. -/
def pySub : PyVal → PyVal → Except Unit PyVal
  | .num a, .num b => .ok (.num (a - b))
  | _, _ => .error ()

/-- The loop of the Python min builtin: keep the current best and
replace it whenever the next item compares strictly below it; a raising
comparison aborts the whole computation. -/
def pyMinFold : PyVal → List PyVal → Except Unit PyVal
  | best, [] => .ok best
  | best, v :: rest =>
      match pyLt v best with
      | .error e => .error e
      | .ok b => pyMinFold (if b then v else best) rest

/-- The loop of the Python max builtin: keep the current best and
replace it whenever the current best compares strictly below the next
item. -/
def pyMaxFold : PyVal → List PyVal → Except Unit PyVal
  | best, [] => .ok best
  | best, v :: rest =>
      match pyLt best v with
      | .error e => .error e
      | .ok b => pyMaxFold (if b then v else best) rest

/-- Order used to state numeric box facts: it holds between two numbers
in the numeric order and never holds when either side is not a
number. -/
def PyVal.le : PyVal → PyVal → Prop
  | .num a, .num b => a ≤ b
  | _, _ => False

/-- Bounding box as built by the service: top-left corner, size, and
derived bottom-right corner.  Fields are raw values because Python
string or list concatenation can flow non-numbers into them. -/
structure Box where
  x : PyVal
  y : PyVal
  width : PyVal
  height : PyVal
  x2 : PyVal
  y2 : PyVal

/-- The all-zero fallback box used for missing or unparseable
geometry. -/
def Box.zero : Box := ⟨.num 0, .num 0, .num 0, .num 0, .num 0, .num 0⟩

/-- The invariant the spec states for bounding boxes: width and height
are nonnegative numbers, and each derived corner lies at or beyond the
top-left corner numerically. -/
def Box.invariant (b : Box) : Prop :=
  PyVal.le (.num 0) b.width ∧ PyVal.le (.num 0) b.height ∧
    PyVal.le b.x b.x2 ∧ PyVal.le b.y b.y2

/-- Provider word record from the TextOverlay, as the tagged schema of
the fields the source reads: WordText, Confidence, Left, Top, Width,
Height.  Each field may be absent. -/
structure PWord where
  WordText : Option String
  Confidence : Option ℚ
  Left : Option PyVal
  Top : Option PyVal
  Width : Option PyVal
  Height : Option PyVal

/-- Provider line record: LineText and the list of word records. -/
structure PLine where
  LineText : Option String
  Words : List PWord

/-- One entry of ParsedResults: its TextOverlay line list (absent
overlay reads as the empty line list) and its ParsedText. -/
structure ParsedResult where
  TextOverlay : Option (List PLine)
  ParsedText : Option String

/-- Provider response body: the processing-error flag, the optional
error message, and the list of parsed results. -/
structure ProviderResponse where
  IsErroredOnProcessing : Bool
  ErrorMessage : Option String
  ParsedResults : List ParsedResult

/-- Word produced by the normalizer. -/
structure Word where
  text : String
  confidence : ℚ
  boundingBox : Box
  lineIndex : ℕ

/-- Line produced by the normalizer. -/
structure Line where
  text : String
  boundingBox : Box
  words : List Word
  lineIndex : ℕ

/-- OCRService parse word coordinates: reads Left, Top, Width, Height
with default 0 and returns the box with the derived corners computed by
Python addition; if either addition raises (mismatched or non-addable
operand types) the except clause returns the all-zero box.  Two string
or two list operands concatenate without raising and their result flows
into the box. -/
def parse_word_coordinates (w : PWord) : Box :=
  match pyAdd (w.Left.getD (.num 0)) (w.Width.getD (.num 0)),
      pyAdd (w.Top.getD (.num 0)) (w.Height.getD (.num 0)) with
  | .ok x2, .ok y2 =>
      ⟨w.Left.getD (.num 0), w.Top.getD (.num 0), w.Width.getD (.num 0),
        w.Height.getD (.num 0), x2, y2⟩
  | _, _ => Box.zero

/-- OCRService calculate line bounding box: for a nonempty word list,
run the Python min builtin over the x and y coordinates and the Python
max builtin over the x2 and y2 coordinates of the word boxes, then
subtract for width and height; if any comparison or subtraction raises,
the except clause returns the all-zero box, as it does for an empty
word list. -/
def calculate_line_bounding_box (lineWords : List Word) : Box :=
  match lineWords with
  | [] => Box.zero
  | w :: ws =>
      match pyMinFold w.boundingBox.x (ws.map fun v => v.boundingBox.x),
          pyMinFold w.boundingBox.y (ws.map fun v => v.boundingBox.y),
          pyMaxFold w.boundingBox.x2 (ws.map fun v => v.boundingBox.x2),
          pyMaxFold w.boundingBox.y2 (ws.map fun v => v.boundingBox.y2) with
      | .ok minX, .ok minY, .ok maxX2, .ok maxY2 =>
          match pySub maxX2 minX, pySub maxY2 minY with
          | .ok wd, .ok ht => ⟨minX, minY, wd, ht, maxX2, maxY2⟩
          | _, _ => Box.zero
      | _, _, _, _ => Box.zero

/-- Build one Word from a provider word record at a given line index,
as the inner loop of the source does. -/
def mkWord (idx : ℕ) (pw : PWord) : Word :=
  { text := pw.WordText.getD ""
    confidence := pw.Confidence.getD 0
    boundingBox := parse_word_coordinates pw
    lineIndex := idx }

/-- Build one Line from a provider line record at a given line index:
its words in provider order, its text, and its derived bounding box. -/
def processLine (idx : ℕ) (pl : PLine) : Line :=
  let lineWords := pl.Words.map (mkWord idx)
  { text := pl.LineText.getD ""
    boundingBox := calculate_line_bounding_box lineWords
    words := lineWords
    lineIndex := idx }

/-- The enumerate loop over the overlay lines: the line at position k of
the remaining list gets index idx + k. -/
def processLines : ℕ → List PLine → List Line
  | _, [] => []
  | idx, pl :: rest => processLine idx pl :: processLines (idx + 1) rest

/-- Python str.strip on the parsed text: drop whitespace characters
from both ends of the string. -/
def pyStrip (s : String) : String :=
  ⟨((s.data.dropWhile Char.isWhitespace).reverse.dropWhile
      Char.isWhitespace).reverse⟩

/-- Result of process ocr api: the success or failure dict it returns. -/
inductive OCRApiResult where
  | failure (error : String)
  | success (text : String) (confidence : ℚ) (language : String)
      (words : List Word) (lines : List Line)

/-- Normalization of a provider response body, as process ocr api does
after a successful HTTP round trip: short-circuit on the error flag and
on an empty result list, otherwise process the first parsed result into
words, lines, and the average confidence divided by 100. -/
def normalize_response (resp : ProviderResponse) (language : String) :
    OCRApiResult :=
  if resp.IsErroredOnProcessing then
    .failure (resp.ErrorMessage.getD "OCR API error")
  else
    match resp.ParsedResults with
    | [] => .failure "No text found in image"
    | pr :: _ =>
        let overlayLines := pr.TextOverlay.getD []
        let lines := processLines 0 overlayLines
        let words := (lines.map Line.words).flatten
        let total_confidence := (words.map Word.confidence).sum
        let avg :=
          if 0 < words.length then total_confidence / (words.length : ℚ)
          else 0
        .success (pyStrip (pr.ParsedText.getD "")) (avg / 100) language
          words lines

/-- Outcome of the provider HTTP call as seen by the try block of
process ocr api: a timeout, a non-success HTTP status raised by
raise for status, any other exception, or a parsed response body. -/
inductive ProviderOutcome where
  | timeout
  | httpError (status : ℕ)
  | exception (msg : String)
  | response (resp : ProviderResponse)

/-- process ocr api of OCRService: normalizes a received response body,
and maps each failure of the call itself to the fixed failure message
of the corresponding except clause. -/
def process_ocr_api (outcome : ProviderOutcome) (language : String) :
    OCRApiResult :=
  match outcome with
  | .response r => normalize_response r language
  | .timeout =>
      .failure
        "OCR API request timed out. Try with a smaller image or check your internet connection."
  | .httpError s =>
      if s = 429 then
        .failure "OCR API rate limit exceeded. Please wait a moment and try again."
      else if s = 413 then
        .failure "Image too large for OCR API. Please use a smaller image."
      else
        .failure ("OCR API error: " ++ toString s)
  | .exception msg => .failure ("OCR API call failed: " ++ msg)

/-- Wire response model OCRResponse of the handler; optional fields not
passed at a construction site are absent. -/
structure OCRResponse where
  success : Bool
  text : Option String
  confidence : Option ℚ
  error_message : Option String
  processing_time_ms : ℚ
  image_size_bytes : ℕ
  language_used : String
  words : Option (List Word)
  lines : Option (List Line)

/-- What the handler hands back to the HTTP framework: either a raised
HTTPException with a status code and detail, or a structured
OCRResponse body. -/
inductive HandlerResult where
  | httpError (status : ℕ) (detail : String)
  | response (r : OCRResponse)

/-- Outcome of reading the uploaded image inside the try block of the
handler: the byte length on success, or an exception message. -/
inductive ReadOutcome where
  | ok (size : ℕ)
  | exn (msg : String)

/-- How the handler turns the value returned by process ocr api into a
wire response: the success branch copies text, confidence, language,
words and lines; the failure branch carries the error message with
empty word and line lists. -/
def buildResponse (size : ℕ) (elapsed : ℚ) (language : String) :
    OCRApiResult → HandlerResult
  | .success text conf lang ws ls =>
      .response
        { success := true
          text := some text
          confidence := some conf
          error_message := none
          processing_time_ms := elapsed
          image_size_bytes := size
          language_used := lang
          words := some ws
          lines := some ls }
  | .failure err =>
      .response
        { success := false
          text := none
          confidence := none
          error_message := some err
          processing_time_ms := elapsed
          image_size_bytes := size
          language_used := language
          words := some []
          lines := some [] }

/-- The POST ocr process handler: read the upload, reject payloads over
1 MiB with HTTP 413 before any provider call, otherwise forward to the
provider and wrap the result; any other exception is caught at the
outer boundary and converted into a structured internal-error response
with image size 0 and no word or line lists. -/
def process_ocr (read : ReadOutcome) (provider : ProviderOutcome)
    (elapsed : ℚ) (language : String) : HandlerResult :=
  match read with
  | .exn msg =>
      .response
        { success := false
          text := none
          confidence := none
          error_message := some ("Internal server error: " ++ msg)
          processing_time_ms := elapsed
          image_size_bytes := 0
          language_used := language
          words := none
          lines := none }
  | .ok size =>
      if 1024 * 1024 < size then
        .httpError 413
          ("Image too large: " ++ toString size ++ " bytes (max: 1MB)")
      else
        buildResponse size elapsed language (process_ocr_api provider language)

/-! Helper lemmas about the Python comparison and the min and max
loops on numeric values. -/

lemma pyLt_num_true {a b : ℚ} (h : a < b) :
    pyLt (.num a) (.num b) = .ok true := by
  simp [pyLt, decide_eq_true h]

lemma pyLt_num_false {a b : ℚ} (h : ¬ a < b) :
    pyLt (.num a) (.num b) = .ok false := by
  simp [pyLt, decide_eq_false h]

lemma pyMinFold_num : ∀ (xs : List PyVal) (a : ℚ),
    (∀ x ∈ xs, ∃ q : ℚ, x = .num q) →
    ∃ m : ℚ, pyMinFold (.num a) xs = .ok (.num m) ∧
      (m = a ∨ PyVal.num m ∈ xs) ∧ m ≤ a ∧
      ∀ q : ℚ, PyVal.num q ∈ xs → m ≤ q
  | [], a, _ =>
      ⟨a, rfl, Or.inl rfl, le_refl a,
        fun _ hq => absurd hq (List.not_mem_nil _)⟩
  | x :: rest, a, hxs => by
      obtain ⟨q, rfl⟩ := hxs x (List.mem_cons_self x rest)
      have hrest : ∀ y ∈ rest, ∃ p : ℚ, y = .num p :=
        fun y hy => hxs y (List.mem_cons_of_mem _ hy)
      by_cases hlt : q < a
      · have hstep : pyMinFold (.num a) (.num q :: rest) =
            pyMinFold (.num q) rest := by
          simp [pyMinFold, pyLt, decide_eq_true hlt]
        obtain ⟨m, hm, hmem, hle, hub⟩ := pyMinFold_num rest q hrest
        refine ⟨m, hstep ▸ hm, ?_, le_trans hle (le_of_lt hlt), ?_⟩
        · rcases hmem with rfl | hmm
          · exact Or.inr (List.mem_cons_self _ _)
          · exact Or.inr (List.mem_cons_of_mem _ hmm)
        · intro p hp
          rcases List.mem_cons.mp hp with heq | hmm
          · have hpq : p = q := by injection heq
            exact hpq ▸ hle
          · exact hub p hmm
      · have hstep : pyMinFold (.num a) (.num q :: rest) =
            pyMinFold (.num a) rest := by
          simp [pyMinFold, pyLt, decide_eq_false hlt]
        obtain ⟨m, hm, hmem, hle, hub⟩ := pyMinFold_num rest a hrest
        refine ⟨m, hstep ▸ hm, ?_, hle, ?_⟩
        · rcases hmem with rfl | hmm
          · exact Or.inl rfl
          · exact Or.inr (List.mem_cons_of_mem _ hmm)
        · intro p hp
          rcases List.mem_cons.mp hp with heq | hmm
          · have hpq : p = q := by injection heq
            exact hpq ▸ le_trans hle (le_of_not_lt hlt)
          · exact hub p hmm

lemma pyMaxFold_num : ∀ (xs : List PyVal) (a : ℚ),
    (∀ x ∈ xs, ∃ q : ℚ, x = .num q) →
    ∃ m : ℚ, pyMaxFold (.num a) xs = .ok (.num m) ∧
      (m = a ∨ PyVal.num m ∈ xs) ∧ a ≤ m ∧
      ∀ q : ℚ, PyVal.num q ∈ xs → q ≤ m
  | [], a, _ =>
      ⟨a, rfl, Or.inl rfl, le_refl a,
        fun _ hq => absurd hq (List.not_mem_nil _)⟩
  | x :: rest, a, hxs => by
      obtain ⟨q, rfl⟩ := hxs x (List.mem_cons_self x rest)
      have hrest : ∀ y ∈ rest, ∃ p : ℚ, y = .num p :=
        fun y hy => hxs y (List.mem_cons_of_mem _ hy)
      by_cases hlt : a < q
      · have hstep : pyMaxFold (.num a) (.num q :: rest) =
            pyMaxFold (.num q) rest := by
          simp [pyMaxFold, pyLt, decide_eq_true hlt]
        obtain ⟨m, hm, hmem, hle, hub⟩ := pyMaxFold_num rest q hrest
        refine ⟨m, hstep ▸ hm, ?_, le_trans (le_of_lt hlt) hle, ?_⟩
        · rcases hmem with rfl | hmm
          · exact Or.inr (List.mem_cons_self _ _)
          · exact Or.inr (List.mem_cons_of_mem _ hmm)
        · intro p hp
          rcases List.mem_cons.mp hp with heq | hmm
          · have hpq : p = q := by injection heq
            exact hpq ▸ hle
          · exact hub p hmm
      · have hstep : pyMaxFold (.num a) (.num q :: rest) =
            pyMaxFold (.num a) rest := by
          simp [pyMaxFold, pyLt, decide_eq_false hlt]
        obtain ⟨m, hm, hmem, hle, hub⟩ := pyMaxFold_num rest a hrest
        refine ⟨m, hstep ▸ hm, ?_, hle, ?_⟩
        · rcases hmem with rfl | hmm
          · exact Or.inl rfl
          · exact Or.inr (List.mem_cons_of_mem _ hmm)
        · intro p hp
          rcases List.mem_cons.mp hp with heq | hmm
          · have hpq : p = q := by injection heq
            exact hpq ▸ le_trans (le_of_not_lt hlt) hle
          · exact hub p hmm

lemma pyLe_trans {u v w : PyVal} :
    PyVal.le u v → PyVal.le v w → PyVal.le u w := by
  cases u <;> cases v <;> cases w <;> intro h1 h2 <;>
    first
      | exact le_trans h1 h2
      | exact h1.elim
      | exact h2.elim

lemma pySub_ok_nonneg {u v w : PyVal} (h : pySub u v = .ok w)
    (hle : PyVal.le v u) : PyVal.le (.num 0) w := by
  cases u <;> cases v <;> simp [pySub] at h
  subst h
  exact sub_nonneg.mpr hle

/-! Helper lemmas about the shape of processLines. -/

lemma length_processLines (i : ℕ) (pls : List PLine) :
    (processLines i pls).length = pls.length := by
  induction pls generalizing i with
  | nil => rfl
  | cons pl rest ih => simp [processLines, ih]

lemma get_processLines (pls : List PLine) (i k : ℕ)
    (hk : k < (processLines i pls).length) (hk2 : k < pls.length) :
    (processLines i pls).get ⟨k, hk⟩ = processLine (i + k) (pls.get ⟨k, hk2⟩) := by
  induction pls generalizing i k with
  | nil => cases hk2
  | cons pl rest ih =>
      cases k with
      | zero => simp [processLines]
      | succ n =>
          have hn : n < (processLines (i + 1) rest).length := by
            simpa [processLines] using hk
          have hn2 : n < rest.length := Nat.lt_of_succ_lt_succ hk2
          have := ih (i + 1) n hn hn2
          simpa [processLines, Nat.add_assoc, Nat.add_comm 1 n] using this

lemma mem_processLines {line : Line} {i : ℕ} {pls : List PLine}
    (h : line ∈ processLines i pls) :
    ∃ pl ∈ pls, ∃ j, line = processLine j pl := by
  induction pls generalizing i with
  | nil => cases h
  | cons pl rest ih =>
      rcases List.mem_cons.mp h with rfl | hmem
      · exact ⟨pl, List.mem_cons_self pl rest, i, rfl⟩
      · rcases ih hmem with ⟨pl2, hpl2, j, hj⟩
        exact ⟨pl2, List.mem_cons_of_mem pl hpl2, j, hj⟩

lemma words_of_processLines {w : Word} {i : ℕ} {pls : List PLine}
    (h : w ∈ ((processLines i pls).map Line.words).flatten) :
    ∃ pl ∈ pls, ∃ pw ∈ pl.Words, ∃ j, w = mkWord j pw := by
  rcases List.mem_flatten.mp h with ⟨lws, hlws, hw⟩
  rcases List.mem_map.mp hlws with ⟨line, hline, rfl⟩
  rcases mem_processLines hline with ⟨pl, hpl, j, rfl⟩
  rcases List.mem_map.mp hw with ⟨pw, hpw, rfl⟩
  exact ⟨pl, hpl, pw, hpw, j, rfl⟩

/-- Inversion of a successful normalization: the components of the
success value in terms of the first parsed result. -/
lemma normalize_success_inv {resp : ProviderResponse} {lang t l : String}
    {c : ℚ} {ws : List Word} {ls : List Line}
    (h : normalize_response resp lang = .success t c l ws ls) :
    resp.IsErroredOnProcessing = false ∧
    ∃ pr rest, resp.ParsedResults = pr :: rest ∧
      ls = processLines 0 (pr.TextOverlay.getD []) ∧
      ws = (ls.map Line.words).flatten ∧
      c = (if 0 < ws.length then
            (ws.map Word.confidence).sum / (ws.length : ℚ) else 0) / 100 ∧
      t = pyStrip (pr.ParsedText.getD "") ∧ l = lang := by
  unfold normalize_response at h
  by_cases hflag : resp.IsErroredOnProcessing
  · simp [hflag] at h
  · rw [if_neg hflag] at h
    cases hpr : resp.ParsedResults with
    | nil => rw [hpr] at h; cases h
    | cons pr rest =>
        rw [hpr] at h
        simp only [OCRApiResult.success.injEq] at h
        obtain ⟨ht, hc, hl, hw, hlines⟩ := h
        subst hlines
        subst hw
        refine ⟨Bool.eq_false_iff.mpr hflag, pr, rest, hpr ▸ rfl, rfl, rfl, ?_,
          ht.symm, hl.symm⟩
        exact hc.symm

/-- Every word of a successful normalization originates from a provider
word record of the overlay of some parsed result. -/
lemma word_origin {resp : ProviderResponse} {lang t l : String}
    {c : ℚ} {ws : List Word} {ls : List Line}
    (h : normalize_response resp lang = .success t c l ws ls) :
    ∀ w ∈ ws, ∃ pr ∈ resp.ParsedResults, ∃ pl ∈ pr.TextOverlay.getD [],
      ∃ pw ∈ pl.Words, ∃ j, w = mkWord j pw := by
  obtain ⟨-, pr, rest, hpr, hls, hws, -, -, -⟩ := normalize_success_inv h
  subst hls
  subst hws
  intro w hw
  rcases words_of_processLines hw with ⟨pl, hpl, pw, hpw, j, rfl⟩
  exact ⟨pr, by rw [hpr]; exact List.mem_cons_self pr rest,
    pl, hpl, pw, hpw, j, rfl⟩

/-- Every line of a successful normalization originates from a provider
line record of the overlay of some parsed result. -/
lemma line_origin {resp : ProviderResponse} {lang t l : String}
    {c : ℚ} {ws : List Word} {ls : List Line}
    (h : normalize_response resp lang = .success t c l ws ls) :
    ∀ line ∈ ls, ∃ pr ∈ resp.ParsedResults, ∃ pl ∈ pr.TextOverlay.getD [],
      ∃ j, line = processLine j pl := by
  obtain ⟨-, pr, rest, hpr, hls, -, -, -, -⟩ := normalize_success_inv h
  subst hls
  intro line hline
  rcases mem_processLines hline with ⟨pl, hpl, j, rfl⟩
  exact ⟨pr, by rw [hpr]; exact List.mem_cons_self pr rest, pl, hpl, j, rfl⟩

/-- Every line of a successful normalization has its bounding box
computed from its own word list. -/
lemma line_box_eq_calc {resp : ProviderResponse} {lang t l : String}
    {c : ℚ} {ws : List Word} {ls : List Line}
    (h : normalize_response resp lang = .success t c l ws ls) :
    ∀ line ∈ ls, line.boundingBox = calculate_line_bounding_box line.words := by
  obtain ⟨-, pr, rest, -, hls, -, -, -, -⟩ := normalize_success_inv h
  subst hls
  intro line hline
  rcases mem_processLines hline with ⟨pl, -, j, rfl⟩
  rfl

/-- Characterization of the line bounding box on a nonempty word list
all of whose corner coordinates are numbers: the box corners are the
attained minima and maxima and the sides are the Python differences of
the corners. -/
lemma calc_box_spec_numeric (w : Word) (ws : List Word)
    (hnum : ∀ v ∈ w :: ws,
      (∃ q : ℚ, v.boundingBox.x = PyVal.num q) ∧
      (∃ q : ℚ, v.boundingBox.y = PyVal.num q) ∧
      (∃ q : ℚ, v.boundingBox.x2 = PyVal.num q) ∧
      (∃ q : ℚ, v.boundingBox.y2 = PyVal.num q)) :
    (∀ v ∈ w :: ws,
        PyVal.le (calculate_line_bounding_box (w :: ws)).x v.boundingBox.x ∧
        PyVal.le (calculate_line_bounding_box (w :: ws)).y v.boundingBox.y ∧
        PyVal.le v.boundingBox.x2 (calculate_line_bounding_box (w :: ws)).x2 ∧
        PyVal.le v.boundingBox.y2 (calculate_line_bounding_box (w :: ws)).y2) ∧
    (∃ v ∈ w :: ws, v.boundingBox.x = (calculate_line_bounding_box (w :: ws)).x) ∧
    (∃ v ∈ w :: ws, v.boundingBox.y = (calculate_line_bounding_box (w :: ws)).y) ∧
    (∃ v ∈ w :: ws, v.boundingBox.x2 = (calculate_line_bounding_box (w :: ws)).x2) ∧
    (∃ v ∈ w :: ws, v.boundingBox.y2 = (calculate_line_bounding_box (w :: ws)).y2) ∧
    pySub (calculate_line_bounding_box (w :: ws)).x2
        (calculate_line_bounding_box (w :: ws)).x =
      .ok (calculate_line_bounding_box (w :: ws)).width ∧
    pySub (calculate_line_bounding_box (w :: ws)).y2
        (calculate_line_bounding_box (w :: ws)).y =
      .ok (calculate_line_bounding_box (w :: ws)).height := by
  obtain ⟨⟨ax, hax⟩, ⟨ay, hay⟩, ⟨ax2, hax2⟩, ⟨ay2, hay2⟩⟩ :=
    hnum w (List.mem_cons_self w ws)
  have hxs : ∀ y ∈ ws.map (fun v => v.boundingBox.x), ∃ q : ℚ, y = PyVal.num q := by
    intro y hy
    rcases List.mem_map.mp hy with ⟨v, hv, rfl⟩
    exact (hnum v (List.mem_cons_of_mem _ hv)).1
  have hys : ∀ y ∈ ws.map (fun v => v.boundingBox.y), ∃ q : ℚ, y = PyVal.num q := by
    intro y hy
    rcases List.mem_map.mp hy with ⟨v, hv, rfl⟩
    exact (hnum v (List.mem_cons_of_mem _ hv)).2.1
  have hx2s : ∀ y ∈ ws.map (fun v => v.boundingBox.x2), ∃ q : ℚ, y = PyVal.num q := by
    intro y hy
    rcases List.mem_map.mp hy with ⟨v, hv, rfl⟩
    exact (hnum v (List.mem_cons_of_mem _ hv)).2.2.1
  have hy2s : ∀ y ∈ ws.map (fun v => v.boundingBox.y2), ∃ q : ℚ, y = PyVal.num q := by
    intro y hy
    rcases List.mem_map.mp hy with ⟨v, hv, rfl⟩
    exact (hnum v (List.mem_cons_of_mem _ hv)).2.2.2
  obtain ⟨mx, hmx, hmemx, hlex, hubx⟩ :=
    pyMinFold_num (ws.map fun v => v.boundingBox.x) ax hxs
  obtain ⟨my, hmy, hmemy, hley, huby⟩ :=
    pyMinFold_num (ws.map fun v => v.boundingBox.y) ay hys
  obtain ⟨mX, hmX, hmemX, hleX, hubX⟩ :=
    pyMaxFold_num (ws.map fun v => v.boundingBox.x2) ax2 hx2s
  obtain ⟨mY, hmY, hmemY, hleY, hubY⟩ :=
    pyMaxFold_num (ws.map fun v => v.boundingBox.y2) ay2 hy2s
  have hbox : calculate_line_bounding_box (w :: ws) =
      ⟨.num mx, .num my, .num (mX - mx), .num (mY - my), .num mX, .num mY⟩ := by
    simp only [calculate_line_bounding_box]
    rw [hax, hay, hax2, hay2, hmx, hmy, hmX, hmY]
    rfl
  rw [hbox]
  refine ⟨?_, ?_, ?_, ?_, ?_, rfl, rfl⟩
  · intro v hv
    obtain ⟨⟨qx, hqx⟩, ⟨qy, hqy⟩, ⟨qx2, hqx2⟩, ⟨qy2, hqy2⟩⟩ := hnum v hv
    rw [hqx, hqy, hqx2, hqy2]
    rcases List.mem_cons.mp hv with rfl | hmem
    · have e1 : ax = qx := by rw [hax] at hqx; injection hqx
      have e2 : ay = qy := by rw [hay] at hqy; injection hqy
      have e3 : ax2 = qx2 := by rw [hax2] at hqx2; injection hqx2
      have e4 : ay2 = qy2 := by rw [hay2] at hqy2; injection hqy2
      exact ⟨e1 ▸ hlex, e2 ▸ hley, e3 ▸ hleX, e4 ▸ hleY⟩
    · refine ⟨hubx qx ?_, huby qy ?_, hubX qx2 ?_, hubY qy2 ?_⟩
      · exact hqx ▸ List.mem_map_of_mem _ hmem
      · exact hqy ▸ List.mem_map_of_mem _ hmem
      · exact hqx2 ▸ List.mem_map_of_mem _ hmem
      · exact hqy2 ▸ List.mem_map_of_mem _ hmem
  · rcases hmemx with rfl | hmm
    · exact ⟨w, List.mem_cons_self w ws, hax⟩
    · rcases List.mem_map.mp hmm with ⟨v, hv, heq⟩
      exact ⟨v, List.mem_cons_of_mem _ hv, heq⟩
  · rcases hmemy with rfl | hmm
    · exact ⟨w, List.mem_cons_self w ws, hay⟩
    · rcases List.mem_map.mp hmm with ⟨v, hv, heq⟩
      exact ⟨v, List.mem_cons_of_mem _ hv, heq⟩
  · rcases hmemX with rfl | hmm
    · exact ⟨w, List.mem_cons_self w ws, hax2⟩
    · rcases List.mem_map.mp hmm with ⟨v, hv, heq⟩
      exact ⟨v, List.mem_cons_of_mem _ hv, heq⟩
  · rcases hmemY with rfl | hmm
    · exact ⟨w, List.mem_cons_self w ws, hay2⟩
    · rcases List.mem_map.mp hmm with ⟨v, hv, heq⟩
      exact ⟨v, List.mem_cons_of_mem _ hv, heq⟩

/-- Provider response whose single word carries string Left and Width
values, for the C1 counterexample: Python concatenates the two strings
in the word box, and the line box then falls to the all-zero fallback
when the width subtraction raises. -/
def c1BadResp : ProviderResponse :=
  { IsErroredOnProcessing := false
    ErrorMessage := none
    ParsedResults :=
      [{ TextOverlay := some
          [{ LineText := some "w"
             Words := [{ WordText := some "w", Confidence := some 50,
                         Left := some (.str "a"), Top := none,
                         Width := some (.str "b"), Height := none }] }]
         ParsedText := some "w" }] }

/-- The garbage word the normalizer produces on the C1 counterexample
response. -/
def c1BadWord : Word :=
  ⟨"w", 50, ⟨.str "a", .num 0, .str "b", .num 0, .str "ab", .num 0⟩, 0⟩

/-- The line the normalizer produces on the C1 counterexample response:
its box is the all-zero fallback, not the union of its word boxes. -/
def c1BadLine : Line := ⟨"w", Box.zero, [c1BadWord], 0⟩

/-- Counterexample to C1 as stated: the normalizer succeeds on a
response whose single word has string Left and Width values, and the
produced line holds exactly one word yet its bounding box x differs
from the x of that word, so the line box is not the min and max union
of its word boxes. -/
theorem line_box_union_counterexample :
    normalize_response c1BadResp "eng" =
      .success "w" (1 / 2) "eng" [c1BadWord] [c1BadLine] ∧
    c1BadLine.words = [c1BadWord] ∧
    c1BadLine.boundingBox.x ≠ c1BadWord.boundingBox.x := by
  refine ⟨?_, rfl, ?_⟩
  · norm_num [normalize_response, c1BadResp, processLines, processLine, mkWord,
      parse_word_coordinates, calculate_line_bounding_box, pyAdd, pySub,
      pyMinFold, pyMaxFold, pyStrip, Box.zero, c1BadWord, c1BadLine] ; decide
  · intro hcontra
    simp [c1BadLine, c1BadWord, Box.zero] at hcontra

/-- C1 (amended): for every line produced by the response normalizer
whose words all carry numeric box corners, a nonempty line has its
bounding box equal to the min and max union of the word boxes: x and y
are lower bounds attained by some word, x2 and y2 are upper bounds
attained by some word, and width and height are the Python differences
x2 minus x and y2 minus y; a line with zero words gets the all-zero
box.  A non-numeric corner, possible because Python addition
concatenates two strings or two lists, instead sends the line box to
the all-zero fallback. -/
theorem line_box_minmax_union (resp : ProviderResponse) (lang t l : String)
    (c : ℚ) (ws : List Word) (ls : List Line)
    (h : normalize_response resp lang = .success t c l ws ls) :
    ∀ line ∈ ls,
      (line.words = [] → line.boundingBox = Box.zero) ∧
      ((∀ v ∈ line.words,
          (∃ q : ℚ, v.boundingBox.x = PyVal.num q) ∧
          (∃ q : ℚ, v.boundingBox.y = PyVal.num q) ∧
          (∃ q : ℚ, v.boundingBox.x2 = PyVal.num q) ∧
          (∃ q : ℚ, v.boundingBox.y2 = PyVal.num q)) →
        line.words ≠ [] →
        (∀ v ∈ line.words,
            PyVal.le line.boundingBox.x v.boundingBox.x ∧
            PyVal.le line.boundingBox.y v.boundingBox.y ∧
            PyVal.le v.boundingBox.x2 line.boundingBox.x2 ∧
            PyVal.le v.boundingBox.y2 line.boundingBox.y2) ∧
        (∃ v ∈ line.words, v.boundingBox.x = line.boundingBox.x) ∧
        (∃ v ∈ line.words, v.boundingBox.y = line.boundingBox.y) ∧
        (∃ v ∈ line.words, v.boundingBox.x2 = line.boundingBox.x2) ∧
        (∃ v ∈ line.words, v.boundingBox.y2 = line.boundingBox.y2) ∧
        pySub line.boundingBox.x2 line.boundingBox.x =
          .ok line.boundingBox.width ∧
        pySub line.boundingBox.y2 line.boundingBox.y =
          .ok line.boundingBox.height) := by
  intro line hline
  have hbox := line_box_eq_calc h line hline
  constructor
  · intro hnil
    rw [hbox, hnil]
    rfl
  · intro hnum hne
    rcases hlw : line.words with _ | ⟨w, rest⟩
    · rw [hlw] at hne
      exact absurd rfl hne
    · rw [hlw] at hbox hnum
      rw [hbox]
      exact calc_box_spec_numeric w rest hnum

/-- Sample provider response for the witnesses: one line holding two
words with boxes at (0,0,10,10) and (20,0,10,10) and confidences 80 and
90, followed by a line with no words. -/
def c1Resp : ProviderResponse :=
  { IsErroredOnProcessing := false
    ErrorMessage := none
    ParsedResults :=
      [{ TextOverlay := some
          [{ LineText := some "ab cd"
             Words :=
               [{ WordText := some "ab", Confidence := some 80,
                  Left := some (.num 0), Top := some (.num 0),
                  Width := some (.num 10), Height := some (.num 10) },
                { WordText := some "cd", Confidence := some 90,
                  Left := some (.num 20), Top := some (.num 0),
                  Width := some (.num 10), Height := some (.num 10) }] },
           { LineText := some "", Words := [] }]
         ParsedText := some " ab cd " }] }

/-- First word the normalizer produces on the sample response. -/
def c1Word1 : Word :=
  ⟨"ab", 80, ⟨.num 0, .num 0, .num 10, .num 10, .num 10, .num 10⟩, 0⟩

/-- Second word the normalizer produces on the sample response. -/
def c1Word2 : Word :=
  ⟨"cd", 90, ⟨.num 20, .num 0, .num 10, .num 10, .num 30, .num 10⟩, 0⟩

/-- First line the normalizer produces on the sample response. -/
def c1Line0 : Line :=
  ⟨"ab cd", ⟨.num 0, .num 0, .num 30, .num 10, .num 30, .num 10⟩,
    [c1Word1, c1Word2], 0⟩

/-- Second line the normalizer produces on the sample response. -/
def c1Line1 : Line := ⟨"", Box.zero, [], 1⟩

/-- Witness for the amended C1 at the sample response: some word of the
nonempty sample line attains the line box x, the line box width is the
Python difference of its x2 and x, and the empty sample line has the
all-zero box. -/
theorem line_box_minmax_union_witness :
    ((∃ v ∈ c1Line0.words, v.boundingBox.x = c1Line0.boundingBox.x) ∧
      pySub c1Line0.boundingBox.x2 c1Line0.boundingBox.x =
        .ok c1Line0.boundingBox.width) ∧
    c1Line1.boundingBox = Box.zero := by
  have h := line_box_minmax_union c1Resp "eng" "ab cd" "eng" (17 / 20)
    [c1Word1, c1Word2] [c1Line0, c1Line1]
    (by norm_num [normalize_response, c1Resp, processLines, processLine, mkWord,
        parse_word_coordinates, calculate_line_bounding_box, pyAdd, pySub,
        pyMinFold, pyMaxFold, pyLt_num_true, pyLt_num_false, pyStrip, Box.zero,
        c1Word1, c1Word2, c1Line0, c1Line1] ; decide)
  have h0 := (h c1Line0 (List.mem_cons_self _ _)).2 ?_ ?_
  · exact ⟨⟨h0.2.1, h0.2.2.2.2.2.1⟩,
      (h c1Line1 (List.mem_cons_of_mem _ (List.mem_cons_self _ _))).1 rfl⟩
  · intro v hv
    rcases List.mem_cons.mp hv with rfl | hv2
    · exact ⟨⟨0, rfl⟩, ⟨0, rfl⟩, ⟨10, rfl⟩, ⟨10, rfl⟩⟩
    · rcases List.mem_cons.mp hv2 with rfl | hv3
      · exact ⟨⟨20, rfl⟩, ⟨0, rfl⟩, ⟨30, rfl⟩, ⟨10, rfl⟩⟩
      · cases hv3
  · exact fun hc => List.noConfusion hc

/-- C2: for every successful normalization, the confidence is the sum of
the parsed word confidences divided by the word count and then by 100,
is 0 when there are no words, and lies in the unit interval whenever
every provider-reported confidence lies in the interval 0 to 100. -/
theorem avg_confidence_spec (resp : ProviderResponse) (lang t l : String)
    (c : ℚ) (ws : List Word) (ls : List Line)
    (h : normalize_response resp lang = .success t c l ws ls) :
    (ws.length ≠ 0 →
        c = (ws.map Word.confidence).sum / (ws.length : ℚ) / 100) ∧
    (ws.length = 0 → c = 0) ∧
    ((∀ pr ∈ resp.ParsedResults, ∀ pl ∈ pr.TextOverlay.getD [],
        ∀ pw ∈ pl.Words, ∀ q : ℚ, pw.Confidence = some q → 0 ≤ q ∧ q ≤ 100) →
      0 ≤ c ∧ c ≤ 1) := by
  obtain ⟨-, pr, rest, hpr, -, -, hc, -, -⟩ := normalize_success_inv h
  have horigin := word_origin h
  refine ⟨?_, ?_, ?_⟩
  · intro hne
    rw [hc, if_pos (Nat.pos_of_ne_zero hne)]
  · intro h0
    rw [hc, if_neg (by omega), zero_div]
  · intro hrange
    have hwr : ∀ w ∈ ws, 0 ≤ w.confidence ∧ w.confidence ≤ 100 := by
      intro w hw
      rcases horigin w hw with ⟨pr2, hpr2, pl, hpl, pw, hpw, j, rfl⟩
      have hq := hrange pr2 hpr2 pl hpl pw hpw
      simp only [mkWord]
      cases hcf : pw.Confidence with
      | none => exact ⟨le_refl 0, by norm_num⟩
      | some q => simpa using hq q hcf
    rw [hc]
    by_cases hn : 0 < ws.length
    · rw [if_pos hn]
      have hnpos : (0 : ℚ) < (ws.length : ℚ) := by exact_mod_cast hn
      have hS0 : 0 ≤ (ws.map Word.confidence).sum := by
        apply List.sum_nonneg
        intro x hx
        rcases List.mem_map.mp hx with ⟨w, hw, rfl⟩
        exact (hwr w hw).1
      have hSle : (ws.map Word.confidence).sum ≤ (ws.length : ℚ) * 100 := by
        have hb := List.sum_le_card_nsmul (ws.map Word.confidence) 100 ?_
        · simpa [nsmul_eq_mul] using hb
        · intro x hx
          rcases List.mem_map.mp hx with ⟨w, hw, rfl⟩
          exact (hwr w hw).2
      constructor
      · exact div_nonneg (div_nonneg hS0 hnpos.le) (by norm_num)
      · rw [div_le_one (by norm_num : (0 : ℚ) < 100), div_le_iff₀ hnpos]
        linarith
    · rw [if_neg hn, zero_div]
      norm_num

/-- Sample provider response for the C2 witness: one line with a single
word of confidence 50. -/
def c2Resp : ProviderResponse :=
  { IsErroredOnProcessing := false
    ErrorMessage := none
    ParsedResults :=
      [{ TextOverlay := some
          [{ LineText := some "w"
             Words := [{ WordText := some "w", Confidence := some 50,
                         Left := none, Top := none,
                         Width := none, Height := none }] }]
         ParsedText := some "w" }] }

/-- The word the normalizer produces on the C2 sample response. -/
def c2Word : Word :=
  ⟨"w", 50, ⟨.num 0, .num 0, .num 0, .num 0, .num 0, .num 0⟩, 0⟩

/-- The line the normalizer produces on the C2 sample response. -/
def c2Line : Line :=
  ⟨"w", ⟨.num 0, .num 0, .num 0, .num 0, .num 0, .num 0⟩, [c2Word], 0⟩

/-- Witness for C2 at the sample response: the confidence is one half
and lies in the unit interval. -/
theorem avg_confidence_spec_witness :
    (0 : ℚ) ≤ 1 / 2 ∧ (1 : ℚ) / 2 ≤ 1 :=
  (avg_confidence_spec c2Resp "eng" "w" "eng" (1 / 2) [c2Word] [c2Line]
      (by norm_num [normalize_response, c2Resp, processLines, processLine,
          mkWord, parse_word_coordinates, calculate_line_bounding_box, pyAdd,
          pySub, pyMinFold, pyMaxFold, pyStrip, Box.zero, c2Word,
          c2Line] ; decide)).2.2
    (by intro pr hpr pl hpl pw hpw q hq
        simp only [c2Resp, List.mem_singleton] at hpr
        subst hpr
        simp only [Option.getD, List.mem_singleton] at hpl
        subst hpl
        simp only [List.mem_singleton] at hpw
        subst hpw
        simp only [Option.some.injEq] at hq
        subst hq
        norm_num)

/-- C3 (amended): coordinate parsing is total: when both Python
additions of the try block succeed, the box carries the raw field
values (default 0 when absent) with the derived corners given by those
additions; when either addition raises (mismatched or non-addable
operand types), the except clause returns the all-zero box.  Because
two string or two list operands concatenate without raising, a
malformed field value does not always default to 0. -/
theorem parse_word_coordinates_total (pw : PWord) :
    (∀ x2 y2 : PyVal,
        pyAdd (pw.Left.getD (.num 0)) (pw.Width.getD (.num 0)) = .ok x2 →
        pyAdd (pw.Top.getD (.num 0)) (pw.Height.getD (.num 0)) = .ok y2 →
        parse_word_coordinates pw =
          ⟨pw.Left.getD (.num 0), pw.Top.getD (.num 0),
            pw.Width.getD (.num 0), pw.Height.getD (.num 0), x2, y2⟩) ∧
    ((pyAdd (pw.Left.getD (.num 0)) (pw.Width.getD (.num 0)) = .error () ∨
        pyAdd (pw.Top.getD (.num 0)) (pw.Height.getD (.num 0)) = .error ()) →
      parse_word_coordinates pw = Box.zero) := by
  constructor
  · intro x2 y2 h1 h2
    simp [parse_word_coordinates, h1, h2]
  · intro hcase
    rcases hcase with hl | hl
    · cases h2 : pyAdd (pw.Top.getD (.num 0)) (pw.Height.getD (.num 0)) <;>
        simp [parse_word_coordinates, hl, h2]
    · cases h1 : pyAdd (pw.Left.getD (.num 0)) (pw.Width.getD (.num 0)) <;>
        simp [parse_word_coordinates, h1, hl]

/-- Provider word record with string Left and Width values, for the C3
counterexample. -/
def c3StrWord : PWord :=
  { WordText := some "w", Confidence := some 50
    Left := some (.str "a"), Top := none
    Width := some (.str "b"), Height := none }

/-- Counterexample to C3 as stated: on a word record with string Left
and Width values the two strings concatenate without raising, so the
parsed box is a garbage box carrying the strings, not the all-zero
fallback the claim promises for malformed field values. -/
theorem parse_word_coordinates_counterexample :
    parse_word_coordinates c3StrWord =
      ⟨.str "a", .num 0, .str "b", .num 0, .str "ab", .num 0⟩ ∧
    parse_word_coordinates c3StrWord ≠ Box.zero := by
  have h : parse_word_coordinates c3StrWord =
      ⟨.str "a", .num 0, .str "b", .num 0, .str "ab", .num 0⟩ := by
    norm_num [parse_word_coordinates, c3StrWord, pyAdd] ; decide
  refine ⟨h, ?_⟩
  rw [h]
  intro hcontra
  have hx := congrArg Box.x hcontra
  simp [Box.zero] at hx

/-- Provider word record with numeric Left and Width and absent Top and
Height, for the C3 witness. -/
def c3Word : PWord :=
  { WordText := some "w", Confidence := some 50
    Left := some (.num 4), Top := none
    Width := some (.num 2), Height := none }

/-- Witness for the amended C3: numeric fields with defaults produce
the box with the derived corners. -/
theorem parse_word_coordinates_total_witness :
    parse_word_coordinates c3Word =
      ⟨.num 4, .num 0, .num 2, .num 0, .num 6, .num 0⟩ :=
  (parse_word_coordinates_total c3Word).1 (.num 6) (.num 0)
    (by norm_num [c3Word, pyAdd]) (by norm_num [c3Word, pyAdd])

/-- A parsed word box satisfies the bounding-box invariant whenever the
Width and Height field readings are nonnegative numbers: a numeric Left
and Top give a numeric box with nonnegative sides, and any other Left
or Top makes the addition raise into the all-zero box. -/
lemma parse_word_coordinates_invariant (pw : PWord)
    (hW : ∃ q : ℚ, pw.Width.getD (.num 0) = .num q ∧ 0 ≤ q)
    (hH : ∃ q : ℚ, pw.Height.getD (.num 0) = .num q ∧ 0 ≤ q) :
    (parse_word_coordinates pw).invariant := by
  obtain ⟨wq, hwq, hwq0⟩ := hW
  obtain ⟨hq, hhq, hhq0⟩ := hH
  unfold parse_word_coordinates
  rw [hwq, hhq]
  cases hL : pw.Left.getD (.num 0) <;> cases hT : pw.Top.getD (.num 0) <;>
    first
      | exact ⟨hwq0, hhq0, le_add_of_nonneg_right hwq0,
          le_add_of_nonneg_right hhq0⟩
      | exact ⟨le_refl 0, le_refl 0, le_refl 0, le_refl 0⟩

/-- A parsed word box has numeric corners whenever the Width and Height
field readings are numbers: the box is either fully numeric or the
all-zero fallback. -/
lemma parse_word_coordinates_numeric (pw : PWord)
    (hW : ∃ q : ℚ, pw.Width.getD (.num 0) = .num q)
    (hH : ∃ q : ℚ, pw.Height.getD (.num 0) = .num q) :
    (∃ q : ℚ, (parse_word_coordinates pw).x = PyVal.num q) ∧
    (∃ q : ℚ, (parse_word_coordinates pw).y = PyVal.num q) ∧
    (∃ q : ℚ, (parse_word_coordinates pw).x2 = PyVal.num q) ∧
    (∃ q : ℚ, (parse_word_coordinates pw).y2 = PyVal.num q) := by
  obtain ⟨wq, hwq⟩ := hW
  obtain ⟨hq, hhq⟩ := hH
  unfold parse_word_coordinates
  rw [hwq, hhq]
  cases hL : pw.Left.getD (.num 0) <;> cases hT : pw.Top.getD (.num 0) <;>
    exact ⟨⟨_, rfl⟩, ⟨_, rfl⟩, ⟨_, rfl⟩, ⟨_, rfl⟩⟩

/-- The line box satisfies the bounding-box invariant as soon as all its
word boxes have numeric corners and satisfy the invariant. -/
lemma calc_box_invariant (lws : List Word)
    (hnum : ∀ w ∈ lws,
      (∃ q : ℚ, w.boundingBox.x = PyVal.num q) ∧
      (∃ q : ℚ, w.boundingBox.y = PyVal.num q) ∧
      (∃ q : ℚ, w.boundingBox.x2 = PyVal.num q) ∧
      (∃ q : ℚ, w.boundingBox.y2 = PyVal.num q))
    (hinv : ∀ w ∈ lws, w.boundingBox.invariant) :
    (calculate_line_bounding_box lws).invariant := by
  cases lws with
  | nil => exact ⟨le_refl 0, le_refl 0, le_refl 0, le_refl 0⟩
  | cons w ws =>
      obtain ⟨hle, hx, hy, hx2, hy2, hsubw, hsubh⟩ :=
        calc_box_spec_numeric w ws hnum
      have hxx : PyVal.le (calculate_line_bounding_box (w :: ws)).x
          (calculate_line_bounding_box (w :: ws)).x2 := by
        obtain ⟨v, hv, hvx⟩ := hx
        exact hvx ▸ pyLe_trans (hinv v hv).2.2.1 (hle v hv).2.2.1
      have hyy : PyVal.le (calculate_line_bounding_box (w :: ws)).y
          (calculate_line_bounding_box (w :: ws)).y2 := by
        obtain ⟨v, hv, hvy⟩ := hy
        exact hvy ▸ pyLe_trans (hinv v hv).2.2.2 (hle v hv).2.2.2
      exact ⟨pySub_ok_nonneg hsubw hxx, pySub_ok_nonneg hsubh hyy, hxx, hyy⟩

/-- C4 (amended): under the precondition that the Width and Height
fields of every provider word record, read with default 0 when absent,
are nonnegative numbers, every bounding box produced by the normalizer,
word boxes and line boxes alike, satisfies the invariant.  The
precondition excludes both a negative numeric size and a non-numeric
size, and the counterexample shows each of the two violates the
invariant. -/
theorem box_invariant_of_nonneg (resp : ProviderResponse) (lang t l : String)
    (c : ℚ) (ws : List Word) (ls : List Line)
    (h : normalize_response resp lang = .success t c l ws ls)
    (hnn : ∀ pr ∈ resp.ParsedResults, ∀ pl ∈ pr.TextOverlay.getD [],
        ∀ pw ∈ pl.Words,
        (∃ q : ℚ, pw.Width.getD (.num 0) = .num q ∧ 0 ≤ q) ∧
        (∃ q : ℚ, pw.Height.getD (.num 0) = .num q ∧ 0 ≤ q)) :
    (∀ w ∈ ws, w.boundingBox.invariant) ∧
    (∀ line ∈ ls, line.boundingBox.invariant ∧
        ∀ w ∈ line.words, w.boundingBox.invariant) := by
  have hword := word_origin h
  have hline := line_origin h
  constructor
  · intro w hw
    rcases hword w hw with ⟨pr, hpr, pl, hpl, pw, hpw, j, rfl⟩
    obtain ⟨hW, hH⟩ := hnn pr hpr pl hpl pw hpw
    exact parse_word_coordinates_invariant pw hW hH
  · intro line hl
    rcases hline line hl with ⟨pr, hpr, pl, hpl, j, rfl⟩
    have hwinv : ∀ w ∈ (processLine j pl).words, w.boundingBox.invariant := by
      intro w hw
      simp only [processLine, List.mem_map] at hw
      rcases hw with ⟨pw, hpw, rfl⟩
      obtain ⟨hW, hH⟩ := hnn pr hpr pl hpl pw hpw
      exact parse_word_coordinates_invariant pw hW hH
    have hwnum : ∀ w ∈ (processLine j pl).words,
        (∃ q : ℚ, w.boundingBox.x = PyVal.num q) ∧
        (∃ q : ℚ, w.boundingBox.y = PyVal.num q) ∧
        (∃ q : ℚ, w.boundingBox.x2 = PyVal.num q) ∧
        (∃ q : ℚ, w.boundingBox.y2 = PyVal.num q) := by
      intro w hw
      simp only [processLine, List.mem_map] at hw
      rcases hw with ⟨pw, hpw, rfl⟩
      obtain ⟨hW, hH⟩ := hnn pr hpr pl hpl pw hpw
      obtain ⟨wq, hwq, -⟩ := hW
      obtain ⟨hq, hhq, -⟩ := hH
      exact parse_word_coordinates_numeric pw ⟨wq, hwq⟩ ⟨hq, hhq⟩
    exact ⟨calc_box_invariant _ hwnum hwinv, hwinv⟩

/-- Provider response whose single word carries a negative numeric
Width, for the C4 counterexample. -/
def c4Resp : ProviderResponse :=
  { IsErroredOnProcessing := false
    ErrorMessage := none
    ParsedResults :=
      [{ TextOverlay := some
          [{ LineText := some "w"
             Words := [{ WordText := some "w", Confidence := some 50,
                         Left := some (.num 0), Top := some (.num 0),
                         Width := some (.num (-1)),
                         Height := some (.num 0) }] }]
         ParsedText := some "w" }] }

/-- The word the normalizer produces on the C4 response: its box has a
negative width. -/
def c4Word : Word :=
  ⟨"w", 50, ⟨.num 0, .num 0, .num (-1), .num 0, .num (-1), .num 0⟩, 0⟩

/-- The line the normalizer produces on the C4 response. -/
def c4Line : Line :=
  ⟨"w", ⟨.num 0, .num 0, .num (-1), .num 0, .num (-1), .num 0⟩, [c4Word], 0⟩

/-- Provider response whose single word carries string Left and Width
values, for the second part of the C4 counterexample. -/
def c4StrResp : ProviderResponse :=
  { IsErroredOnProcessing := false
    ErrorMessage := none
    ParsedResults :=
      [{ TextOverlay := some
          [{ LineText := some "w"
             Words := [{ WordText := some "w", Confidence := some 50,
                         Left := some (.str "a"), Top := none,
                         Width := some (.str "b"), Height := none }] }]
         ParsedText := some "w" }] }

/-- The garbage word the normalizer produces on the second C4 response:
its width is a string. -/
def c4StrWord : Word :=
  ⟨"w", 50, ⟨.str "a", .num 0, .str "b", .num 0, .str "ab", .num 0⟩, 0⟩

/-- The line the normalizer produces on the second C4 response. -/
def c4StrLine : Line := ⟨"w", Box.zero, [c4StrWord], 0⟩

/-- Counterexample to C4 as stated: the normalizer accepts a response
whose word carries Width minus one and produces a box with a negative
width and x2 below x, and it accepts a response whose word carries
string Left and Width and produces a box whose width is a string; both
boxes violate the invariant. -/
theorem box_invariant_counterexample :
    (normalize_response c4Resp "eng" =
        .success "w" (1 / 2) "eng" [c4Word] [c4Line] ∧
      ¬ c4Word.boundingBox.invariant) ∧
    (normalize_response c4StrResp "eng" =
        .success "w" (1 / 2) "eng" [c4StrWord] [c4StrLine] ∧
      ¬ c4StrWord.boundingBox.invariant) := by
  refine ⟨⟨?_, ?_⟩, ⟨?_, ?_⟩⟩
  · norm_num [normalize_response, c4Resp, processLines, processLine, mkWord,
      parse_word_coordinates, calculate_line_bounding_box, pyAdd, pySub,
      pyMinFold, pyMaxFold, pyStrip, Box.zero, c4Word, c4Line] ; decide
  · intro hinv
    have h1 := hinv.1
    norm_num [c4Word, PyVal.le] at h1
  · norm_num [normalize_response, c4StrResp, processLines, processLine, mkWord,
      parse_word_coordinates, calculate_line_bounding_box, pyAdd, pySub,
      pyMinFold, pyMaxFold, pyStrip, Box.zero, c4StrWord, c4StrLine] ; decide
  · intro hinv
    exact hinv.1

/-- Witness for the amended C4 at the sample response of C1: the first
word box and the first line box satisfy the invariant. -/
theorem box_invariant_of_nonneg_witness :
    c1Word1.boundingBox.invariant ∧ c1Line0.boundingBox.invariant := by
  have h := box_invariant_of_nonneg c1Resp "eng" "ab cd" "eng" (17 / 20)
    [c1Word1, c1Word2] [c1Line0, c1Line1]
    (by norm_num [normalize_response, c1Resp, processLines, processLine, mkWord,
        parse_word_coordinates, calculate_line_bounding_box, pyAdd, pySub,
        pyMinFold, pyMaxFold, pyLt_num_true, pyLt_num_false, pyStrip, Box.zero,
        c1Word1, c1Word2, c1Line0, c1Line1] ; decide)
    ?_
  · exact ⟨h.1 c1Word1 (List.mem_cons_self _ _),
      (h.2 c1Line0 (List.mem_cons_self _ _)).1⟩
  · intro pr hpr pl hpl pw hpw
    rcases List.mem_cons.mp hpr with rfl | h0
    · rcases List.mem_cons.mp hpl with rfl | hpl2
      · rcases List.mem_cons.mp hpw with rfl | hpw2
        · exact ⟨⟨10, rfl, by norm_num⟩, ⟨10, rfl, by norm_num⟩⟩
        · rcases List.mem_cons.mp hpw2 with rfl | hpw3
          · exact ⟨⟨10, rfl, by norm_num⟩, ⟨10, rfl, by norm_num⟩⟩
          · cases hpw3
      · rcases List.mem_cons.mp hpl2 with rfl | hpl3
        · exact absurd hpw (List.not_mem_nil _)
        · cases hpl3
    · cases h0

/-- C5: every failure of the provider call itself maps to a returned
failure result with the fixed user-facing message of its except clause:
timeout, HTTP 429, HTTP 413, any other HTTP status error, and any other
exception. -/
theorem provider_error_messages (lang : String) :
    process_ocr_api .timeout lang =
      .failure "OCR API request timed out. Try with a smaller image or check your internet connection." ∧
    process_ocr_api (.httpError 429) lang =
      .failure "OCR API rate limit exceeded. Please wait a moment and try again." ∧
    process_ocr_api (.httpError 413) lang =
      .failure "Image too large for OCR API. Please use a smaller image." ∧
    (∀ s : ℕ, s ≠ 429 → s ≠ 413 →
        process_ocr_api (.httpError s) lang =
          .failure ("OCR API error: " ++ toString s)) ∧
    (∀ msg : String, process_ocr_api (.exception msg) lang =
        .failure ("OCR API call failed: " ++ msg)) := by
  refine ⟨rfl, rfl, rfl, fun s h1 h2 => ?_, fun msg => rfl⟩
  simp [process_ocr_api, h1, h2]

/-- Witness for C5 at status 500. -/
theorem provider_error_messages_witness :
    process_ocr_api (.httpError 500) "eng" = .failure "OCR API error: 500" :=
  (provider_error_messages "eng").2.2.2.1 500 (by decide) (by decide)

/-- C6: the normalizer short-circuits to a failure carrying the provider
error message when the processing-error flag is set, and to the failure
message about no text being found when the flag is clear and the parsed
result list is empty. -/
theorem normalize_short_circuit (resp : ProviderResponse) (lang : String) :
    (resp.IsErroredOnProcessing = true →
        normalize_response resp lang =
          .failure (resp.ErrorMessage.getD "OCR API error")) ∧
    (resp.IsErroredOnProcessing = false → resp.ParsedResults = [] →
        normalize_response resp lang = .failure "No text found in image") := by
  constructor
  · intro hflag
    simp [normalize_response, hflag]
  · intro hflag hempty
    simp [normalize_response, hflag, hempty]

/-- Provider response with the processing-error flag set, for the C6
witness. -/
def c6RespErr : ProviderResponse := ⟨true, some "Bad image", []⟩

/-- Provider response with no parsed results, for the C6 witness. -/
def c6RespEmpty : ProviderResponse := ⟨false, none, []⟩

/-- Witness for C6 on both short-circuit paths. -/
theorem normalize_short_circuit_witness :
    normalize_response c6RespErr "eng" = .failure "Bad image" ∧
    normalize_response c6RespEmpty "eng" = .failure "No text found in image" :=
  ⟨(normalize_short_circuit c6RespErr "eng").1 rfl,
   (normalize_short_circuit c6RespEmpty "eng").2 rfl rfl⟩

/-- C7: a payload over 1 MiB makes the handler raise HTTP 413 with the
size detail, independently of whatever the provider would answer, so
the provider call is never made; a payload within the limit flows into
the response built from the provider call. -/
theorem size_limit_no_provider_call (p₁ p₂ : ProviderOutcome) (elapsed : ℚ)
    (lang : String) :
    (∀ size : ℕ, 1024 * 1024 < size →
        process_ocr (.ok size) p₁ elapsed lang =
          .httpError 413
            ("Image too large: " ++ toString size ++ " bytes (max: 1MB)") ∧
        process_ocr (.ok size) p₁ elapsed lang =
          process_ocr (.ok size) p₂ elapsed lang) ∧
    (∀ size : ℕ, size ≤ 1024 * 1024 →
        process_ocr (.ok size) p₁ elapsed lang =
          buildResponse size elapsed lang (process_ocr_api p₁ lang)) := by
  constructor
  · intro size hsz
    constructor <;> simp [process_ocr, hsz]
  · intro size hsz
    simp [process_ocr, Nat.not_lt.mpr hsz]

/-- Witness for C7 at a two-megabyte payload and two different provider
outcomes. -/
theorem size_limit_no_provider_call_witness :
    process_ocr (.ok 2000000) .timeout 5 "eng" =
      .httpError 413
        ("Image too large: " ++ toString 2000000 ++ " bytes (max: 1MB)") ∧
    process_ocr (.ok 2000000) .timeout 5 "eng" =
      process_ocr (.ok 2000000) (.httpError 500) 5 "eng" :=
  (size_limit_no_provider_call .timeout (.httpError 500) 5 "eng").1
    2000000 (by decide)

/-- C8: in a successful normalization the line at position k carries
line index k, every word of that line carries line index k, and the
flat word list is the concatenation of the per-line word lists in line
order. -/
theorem line_indices_and_flat_words (resp : ProviderResponse)
    (lang t l : String) (c : ℚ) (ws : List Word) (ls : List Line)
    (h : normalize_response resp lang = .success t c l ws ls) :
    (∀ k (hk : k < ls.length),
        (ls.get ⟨k, hk⟩).lineIndex = k ∧
        ∀ w ∈ (ls.get ⟨k, hk⟩).words, w.lineIndex = k) ∧
    ws = (ls.map Line.words).flatten := by
  obtain ⟨-, pr, rest, -, hls, hws, -, -, -⟩ := normalize_success_inv h
  subst hls
  refine ⟨?_, hws⟩
  intro k hk
  have hk2 : k < (pr.TextOverlay.getD []).length := by
    rw [← length_processLines 0]
    exact hk
  rw [get_processLines _ 0 k hk hk2]
  constructor
  · simp [processLine]
  · intro w hw
    simp only [processLine, List.mem_map] at hw
    rcases hw with ⟨pw, hpw, rfl⟩
    simp [mkWord]

/-- Witness for C8 at the sample response of C1: the line at position 1
carries line index 1, and the flat word list is the concatenation of
the per-line word lists. -/
theorem line_indices_and_flat_words_witness :
    (([c1Line0, c1Line1] : List Line).get ⟨1, by decide⟩).lineIndex = 1 ∧
    [c1Word1, c1Word2] =
      (([c1Line0, c1Line1] : List Line).map Line.words).flatten := by
  have h := line_indices_and_flat_words c1Resp "eng" "ab cd" "eng" (17 / 20)
    [c1Word1, c1Word2] [c1Line0, c1Line1]
    (by norm_num [normalize_response, c1Resp, processLines, processLine, mkWord,
        parse_word_coordinates, calculate_line_bounding_box, pyAdd, pySub,
        pyMinFold, pyMaxFold, pyLt_num_true, pyLt_num_false, pyStrip, Box.zero,
        c1Word1, c1Word2, c1Line0, c1Line1] ; decide)
  exact ⟨(h.1 1 (by decide)).1, h.2⟩

/-- C9: an exception escaping the processing of a request is converted
at the outer boundary into a structured response with success false, an
internal-error message, the measured processing time, and image size 0,
never a raised transport error. -/
theorem internal_error_boundary (msg lang : String) (p : ProviderOutcome)
    (elapsed : ℚ) :
    process_ocr (.exn msg) p elapsed lang =
      .response
        { success := false
          text := none
          confidence := none
          error_message := some ("Internal server error: " ++ msg)
          processing_time_ms := elapsed
          image_size_bytes := 0
          language_used := lang
          words := none
          lines := none } := rfl

/-- C10: a provider-call failure is answered with empty word and line
lists, absent text and confidence, and the true image size, while the
catch-all internal-error path answers with absent word and line lists
and image size 0; the two shapes always differ. -/
theorem failure_shapes_differ (size : ℕ) (p : ProviderOutcome)
    (elapsed : ℚ) (lang err msg : String)
    (hsz : size ≤ 1024 * 1024)
    (hfail : process_ocr_api p lang = .failure err) :
    process_ocr (.ok size) p elapsed lang =
      .response
        { success := false
          text := none
          confidence := none
          error_message := some err
          processing_time_ms := elapsed
          image_size_bytes := size
          language_used := lang
          words := some []
          lines := some [] } ∧
    process_ocr (.exn msg) p elapsed lang =
      .response
        { success := false
          text := none
          confidence := none
          error_message := some ("Internal server error: " ++ msg)
          processing_time_ms := elapsed
          image_size_bytes := 0
          language_used := lang
          words := none
          lines := none } ∧
    process_ocr (.ok size) p elapsed lang ≠
      process_ocr (.exn msg) p elapsed lang := by
  have h1 : process_ocr (.ok size) p elapsed lang =
      .response
        { success := false
          text := none
          confidence := none
          error_message := some err
          processing_time_ms := elapsed
          image_size_bytes := size
          language_used := lang
          words := some []
          lines := some [] } := by
    simp [process_ocr, Nat.not_lt.mpr hsz, hfail, buildResponse]
  refine ⟨h1, rfl, ?_⟩
  rw [h1]
  simp [process_ocr]

/-- Witness for C10 at a timed-out provider call. -/
theorem failure_shapes_differ_witness :
    process_ocr (.ok 10) .timeout 5 "eng" =
      .response
        { success := false
          text := none
          confidence := none
          error_message := some "OCR API request timed out. Try with a smaller image or check your internet connection."
          processing_time_ms := 5
          image_size_bytes := 10
          language_used := "eng"
          words := some []
          lines := some [] } ∧
    process_ocr (.exn "boom") .timeout 5 "eng" =
      .response
        { success := false
          text := none
          confidence := none
          error_message := some ("Internal server error: " ++ "boom")
          processing_time_ms := 5
          image_size_bytes := 0
          language_used := "eng"
          words := none
          lines := none } ∧
    process_ocr (.ok 10) .timeout 5 "eng" ≠
      process_ocr (.exn "boom") .timeout 5 "eng" :=
  failure_shapes_differ 10 .timeout 5 "eng"
    "OCR API request timed out. Try with a smaller image or check your internet connection."
    "boom" (by decide) rfl

end OCRRelay
